import Mathlib

/-!
# Verification of the incident analytics core of `si2a-dashboard`

Shallow embedding of the pure analytic core of `src/app.py`:

* `SeriesFiller` — gap-filling of a sparse daily count series
  (`anomalies_incidents`, the `reindex(full_idx).fillna(0)` step);
* `AnomalyDetector` — z-score anomaly flagging (`anomalies_incidents`);
* `TrendForecaster` — OLS linear-trend forecast with naive fallbacks
  (`forecast_incidents`);
* `IncidentNarrator` — deterministic executive summary (`generate_ai_summary`);
* `PlaybookSynthesizer` — fallback remediation playbook (`generate_playbook`);
* `ComplianceClassifier` — policy / assessment classification
  (`check_compliance`, the SQL `CASE` expressions).

Modelling conventions:

* Calendar dates are integers (days since an arbitrary epoch); all date
  arithmetic in the source is whole days (`pd.date_range`, `timedelta(days=i)`).
* Python floats are modelled as exact rationals `ℚ`.  The only square root in
  the source (`pandas.Series.std`) is never exposed on its own by any claim we
  settle; comparisons of the form `|x| / √v ≥ 2` (with `v > 0`) are embedded in
  the equivalent squared form `4*v ≤ x^2`, and the bridge to the real-number
  statement with `Real.sqrt` is proved as a theorem.
* `pandas.Series.std()` uses `ddof = 1` (sample standard deviation).  For a
  single-point series it returns `NaN`; since `NaN` is truthy in Python, the
  expression `float(s.std()) or 1.0` keeps the `NaN`, every z-score is `NaN`,
  and `abs(NaN) >= 2.0` is `False`.  We model this undefined variance as
  `Option.none`: the anomaly predicate is `false` when the variance is `none`.
-/

/-! ## AnomalyDetector (`anomalies_incidents`, src/app.py lines 576-582) -/

/-- `mean = float(s.mean())`: arithmetic mean of the counts of a series. -/
def detectMean (s : List (ℤ × ℚ)) : ℚ :=
  ((s.map Prod.snd).sum) / (s.length : ℚ)

/-- Sum of squared deviations from the mean (the numerator of the variance). -/
def detectSS (s : List (ℤ × ℚ)) : ℚ :=
  ((s.map Prod.snd).map (fun c => (c - detectMean s) ^ 2)).sum

/-- The variance underlying `float(s.std())`.  `pandas.Series.std` divides by
`N - 1` (`ddof = 1`); for `N < 2` it yields `NaN`, modelled as `none`. -/
def detectVar (s : List (ℤ × ℚ)) : Option ℚ :=
  if 2 ≤ s.length then some (detectSS s / ((s.length : ℚ) - 1)) else none

/-- The source's membership test `abs(float(zscores.loc[d])) >= 2.0` where
`zscores = (s - mean) / std` and `std = float(s.std()) or 1.0`:

* variance `NaN` (single point): every comparison with `NaN` is `False`;
* variance `0`: `std = 0.0` is falsy, so the divisor is `1.0` and the test is
  `2 ≤ |c - mean|`;
* variance `v > 0`: `2 ≤ |c - mean| / √v`, embedded squared as
  `4*v ≤ (c - mean)^2`. -/
def anomalous (m : ℚ) (v? : Option ℚ) (c : ℚ) : Bool :=
  match v? with
  | none => false
  | some v => if v = 0 then decide (2 ≤ |c - m|) else decide (4 * v ≤ (c - m) ^ 2)

/-- The `anomalies` list: the comprehension `[... for d in s.index if abs(...) >= 2.0]`
is a filter of the (chronologically indexed) series. -/
def detectAnomalies (s : List (ℤ × ℚ)) : List (ℤ × ℚ) :=
  s.filter (fun p => anomalous (detectMean s) (detectVar s) p.2)

/-- Formalised from the spec's words, for comparison with the code: the spec
claims the population variance (divide by `N`, not `N - 1`). -/
def specPopVar (s : List (ℤ × ℚ)) : ℚ :=
  detectSS s / (s.length : ℚ)

/-- Formalised from the spec's words: anomaly test against the population
standard deviation `√(specPopVar s)` (squared form), with the divisor replaced
by `1.0` when that standard deviation is `0`. -/
def specAnomalous (s : List (ℤ × ℚ)) (c : ℚ) : Bool :=
  if specPopVar s = 0 then decide (2 ≤ |c - detectMean s|)
  else decide (4 * specPopVar s ≤ (c - detectMean s) ^ 2)

/-- Formalised from the spec's words: the anomaly list the spec describes. -/
def specPopAnomalies (s : List (ℤ × ℚ)) : List (ℤ × ℚ) :=
  s.filter (fun p => specAnomalous s p.2)

/-- The value inside `detectVar` when it is defined. -/
def sampleVarVal (s : List (ℤ × ℚ)) : ℚ :=
  detectSS s / ((s.length : ℚ) - 1)

/-- A dense daily series: consecutive entries are exactly one calendar day
apart (the spec's `DenseSeries` shape). -/
def DenseDates (s : List (ℤ × ℚ)) : Prop :=
  List.Chain' (fun a b => b.1 = a.1 + 1) s

lemma detectSS_nonneg (s : List (ℤ × ℚ)) : 0 ≤ detectSS s := by
  refine List.sum_nonneg ?_
  intro x hx
  simp only [List.mem_map] at hx
  obtain ⟨c, -, rfl⟩ := hx
  positivity

lemma dense_pairwise_lt {s : List (ℤ × ℚ)} (h : DenseDates s) :
    s.Pairwise (fun a b => a.1 < b.1) := by
  haveI : IsTrans (ℤ × ℚ) (fun a b => a.1 < b.1) :=
    ⟨fun _ _ _ h1 h2 => lt_trans h1 h2⟩
  have h' : List.Chain' (fun a b : ℤ × ℚ => a.1 < b.1) s :=
    h.imp (fun hab => by omega)
  exact List.chain'_iff_pairwise.mp h'

lemma anomalous_some_pos (m c v : ℚ) (hv : 0 < v) :
    anomalous m (some v) c = true ↔ 4 * v ≤ (c - m) ^ 2 := by
  simp [anomalous, hv.ne']

/-- Squared form of the z-score test against its real-number reading. -/
lemma sq_cond_iff_real (x w : ℝ) (hw : 0 < w) :
    4 * w ≤ x ^ 2 ↔ 2 ≤ |x| / Real.sqrt w := by
  have hsq : Real.sqrt (4 * w) = 2 * Real.sqrt w := by
    rw [show (4 : ℝ) * w = 2 ^ 2 * w by ring,
      Real.sqrt_mul (by positivity), Real.sqrt_sq (by norm_num)]
  rw [le_div_iff₀ (Real.sqrt_pos.2 hw)]
  constructor
  · intro h
    have h2 := Real.sqrt_le_sqrt h
    rwa [hsq, Real.sqrt_sq_eq_abs] at h2
  · intro h
    have h0 : (0 : ℝ) ≤ 2 * Real.sqrt w := by positivity
    have h2 := mul_self_le_mul_self h0 h
    calc 4 * w = 2 * Real.sqrt w * (2 * Real.sqrt w) := by
          have := Real.sq_sqrt hw.le
          nlinarith [this]
      _ ≤ |x| * |x| := h2
      _ = x ^ 2 := by rw [abs_mul_abs_self, sq]

/-- Conclusion of the amended claim C1, as a predicate on the series. -/
def C1Post (s : List (ℤ × ℚ)) : Prop :=
  detectMean s = (s.map Prod.snd).sum / (s.length : ℚ) ∧
  detectVar s = some (sampleVarVal s) ∧
  List.Sublist (detectAnomalies s) s ∧
  (DenseDates s → (detectAnomalies s).Pairwise (fun a b => a.1 < b.1)) ∧
  ∀ p ∈ s, (p ∈ detectAnomalies s ↔
    2 ≤ |((p.2 : ℝ)) - ((detectMean s : ℚ) : ℝ)| /
      (if sampleVarVal s = 0 then 1 else Real.sqrt ((sampleVarVal s : ℚ) : ℝ)))

/-- C1 (amended): for a series of at least two days, `detect` uses the
arithmetic mean, the *sample* variance (divide by `N - 1`, pandas `ddof=1`),
the effective divisor is `1.0` exactly when that standard deviation is `0`,
membership in `anomalies` is equivalent to `|((count - mean))/effective_std| ≥ 2`,
and the anomalies are a chronological sublist of the series. -/
theorem C1_detect_sample_std (s : List (ℤ × ℚ)) (h2 : 2 ≤ s.length) : C1Post s := by
  have hvar : detectVar s = some (sampleVarVal s) := by
    simp [detectVar, sampleVarVal, h2]
  refine ⟨rfl, hvar, List.filter_sublist _, ?_, ?_⟩
  · intro hd
    exact (dense_pairwise_lt hd).sublist (List.filter_sublist _)
  · intro p hp
    rw [detectAnomalies, List.mem_filter, hvar]
    have hss : (0 : ℚ) ≤ sampleVarVal s := by
      have hlen : (2 : ℚ) ≤ (s.length : ℚ) := by exact_mod_cast h2
      have : (0 : ℚ) < (s.length : ℚ) - 1 := by linarith
      exact div_nonneg (detectSS_nonneg s) this.le
    rcases eq_or_lt_of_le hss with hz | hpos
    · have v0 : sampleVarVal s = 0 := hz.symm
      rw [v0, if_pos rfl, div_one]
      constructor
      · rintro ⟨-, habs⟩
        simp only [anomalous, if_true, decide_eq_true_eq] at habs
        exact_mod_cast habs
      · intro habs
        refine ⟨hp, ?_⟩
        simp only [anomalous, if_true, decide_eq_true_eq]
        exact_mod_cast habs
    · rw [if_neg hpos.ne', anomalous_some_pos _ _ _ hpos]
      have hcast : ((4 * sampleVarVal s : ℚ) : ℝ) ≤ (((p.2 - detectMean s) ^ 2 : ℚ) : ℝ) ↔
          4 * ((sampleVarVal s : ℚ) : ℝ) ≤ ((p.2 : ℝ) - ((detectMean s : ℚ) : ℝ)) ^ 2 := by
        push_cast
        rfl
      have hwpos : (0 : ℝ) < ((sampleVarVal s : ℚ) : ℝ) := by exact_mod_cast hpos
      constructor
      · rintro ⟨-, hq⟩
        have : (4 : ℚ) * sampleVarVal s ≤ (p.2 - detectMean s) ^ 2 := hq
        have hr : 4 * ((sampleVarVal s : ℚ) : ℝ) ≤ ((p.2 : ℝ) - ((detectMean s : ℚ) : ℝ)) ^ 2 :=
          hcast.mp (by exact_mod_cast this)
        exact (sq_cond_iff_real _ _ hwpos).mp hr
      · intro hr
        refine ⟨hp, ?_⟩
        have := (sq_cond_iff_real _ _ hwpos).mpr hr
        exact_mod_cast hcast.mpr this

/-- Witness instantiating `C1_detect_sample_std` on the two-day series
`[(0, 0), (1, 2)]`. -/
theorem C1_detect_sample_std_witness :
    2 ≤ ([((0 : ℤ), (0 : ℚ)), (1, 2)] : List (ℤ × ℚ)).length ∧
      C1Post [((0 : ℤ), (0 : ℚ)), (1, 2)] :=
  ⟨by decide, C1_detect_sample_std _ (by decide)⟩

/-- C1 (counterexample): on the five-day series `[0,0,0,0,5]` the population
standard deviation is `2` and the last day has z-score exactly `2`, so the
spec's population-based rule flags it; the code's sample standard deviation is
`√5 > 2`, so the code flags nothing.  Hence the claim's population-std
membership rule is false for the code. -/
theorem C1_population_std_counterexample :
    detectAnomalies [((0 : ℤ), (0 : ℚ)), (1, 0), (2, 0), (3, 0), (4, 5)] = [] ∧
    specPopAnomalies [((0 : ℤ), (0 : ℚ)), (1, 0), (2, 0), (3, 0), (4, 5)] = [(4, 5)] := by
  constructor <;>
    norm_num [detectAnomalies, specPopAnomalies, List.filter, anomalous, specAnomalous,
      detectVar, detectMean, detectSS, specPopVar, abs]

/-- C7 (amended): a single-point series is safe: the sample variance is
undefined (pandas returns `NaN`, modelled as `none`; the `or 1.0` substitution
does not fire since `NaN` is truthy), every `NaN` comparison is false, so the
anomaly list is empty; the mean is the single count. -/
theorem C7_single_point_safe (d : ℤ) (c : ℚ) :
    detectVar [(d, c)] = none ∧ detectAnomalies [(d, c)] = [] ∧ detectMean [(d, c)] = c := by
  refine ⟨by simp [detectVar], by simp [detectAnomalies, anomalous, detectVar], ?_⟩
  simp [detectMean]

/-- C7 (counterexample): on the single-point series `[(0, 7)]` the computed
standard deviation is not `0` (pandas `std` with `ddof=1` is `NaN` there,
modelled `none`), contradicting the claim's `std = 0 → effective std 1.0 →
zscore 0` mechanism; the anomaly list is nevertheless empty. -/
theorem C7_single_point_counterexample :
    detectVar [((0 : ℤ), (7 : ℚ))] ≠ some 0 ∧
    detectAnomalies [((0 : ℤ), (7 : ℚ))] = [] := by
  constructor
  · simp [detectVar]
  · simp [detectAnomalies, anomalous, detectVar]

/-! ## SeriesFiller (`anomalies_incidents`, src/app.py lines 573-575)

`full_idx = pd.date_range(df['date'].min(), df['date'].max(), freq='D')`
followed by `reindex(full_idx).fillna(0)`: one entry per calendar day from the
minimum to the maximum observed date, absent days filled with count `0`. -/

/-- `df['date'].min()`. -/
def minDate : List (ℤ × ℚ) → ℤ
  | [] => 0
  | p :: rest => rest.foldl (fun m q => min m q.1) p.1

/-- `df['date'].max()`. -/
def maxDate : List (ℤ × ℚ) → ℤ
  | [] => 0
  | p :: rest => rest.foldl (fun m q => max m q.1) p.1

/-- The dense series: `reindex(full_idx).fillna(0)`.  The aggregation query
groups by date, so the observation dates are distinct and the reindex lookup
is the (first) matching observation. -/
def fillSeries (obs : List (ℤ × ℚ)) : List (ℤ × ℚ) :=
  match obs with
  | [] => []
  | _ :: _ =>
    (List.range ((maxDate obs - minDate obs).toNat + 1)).map
      (fun i : ℕ => (minDate obs + (i : ℤ), ((obs.lookup (minDate obs + (i : ℤ))).getD 0)))

lemma foldl_min_le_self (l : List (ℤ × ℚ)) (a : ℤ) :
    l.foldl (fun m q => min m q.1) a ≤ a := by
  induction l generalizing a with
  | nil => exact le_refl a
  | cons q t ih =>
    calc t.foldl (fun m q => min m q.1) (min a q.1) ≤ min a q.1 := ih _
      _ ≤ a := min_le_left _ _

lemma foldl_min_le_mem (l : List (ℤ × ℚ)) (a : ℤ) {p : ℤ × ℚ} (hp : p ∈ l) :
    l.foldl (fun m q => min m q.1) a ≤ p.1 := by
  induction l generalizing a with
  | nil => cases hp
  | cons q t ih =>
    rcases List.mem_cons.mp hp with rfl | ht
    · calc t.foldl (fun m q => min m q.1) (min a p.1) ≤ min a p.1 := foldl_min_le_self _ _
        _ ≤ p.1 := min_le_right _ _
    · exact ih _ ht

lemma le_foldl_max_self (l : List (ℤ × ℚ)) (a : ℤ) :
    a ≤ l.foldl (fun m q => max m q.1) a := by
  induction l generalizing a with
  | nil => exact le_refl a
  | cons q t ih =>
    calc a ≤ max a q.1 := le_max_left _ _
      _ ≤ t.foldl (fun m q => max m q.1) (max a q.1) := ih _

lemma le_foldl_max_mem (l : List (ℤ × ℚ)) (a : ℤ) {p : ℤ × ℚ} (hp : p ∈ l) :
    p.1 ≤ l.foldl (fun m q => max m q.1) a := by
  induction l generalizing a with
  | nil => cases hp
  | cons q t ih =>
    rcases List.mem_cons.mp hp with rfl | ht
    · calc p.1 ≤ max a p.1 := le_max_right _ _
        _ ≤ t.foldl (fun m q => max m q.1) (max a p.1) := le_foldl_max_self _ _
    · exact ih _ ht

lemma minDate_le {obs : List (ℤ × ℚ)} {p : ℤ × ℚ} (hp : p ∈ obs) :
    minDate obs ≤ p.1 := by
  cases obs with
  | nil => cases hp
  | cons q t =>
    rcases List.mem_cons.mp hp with rfl | ht
    · exact foldl_min_le_self t p.1
    · exact foldl_min_le_mem t q.1 ht

lemma le_maxDate {obs : List (ℤ × ℚ)} {p : ℤ × ℚ} (hp : p ∈ obs) :
    p.1 ≤ maxDate obs := by
  cases obs with
  | nil => cases hp
  | cons q t =>
    rcases List.mem_cons.mp hp with rfl | ht
    · exact le_foldl_max_self t p.1
    · exact le_foldl_max_mem t q.1 ht

lemma lookup_eq_some_of_nodup :
    ∀ {obs : List (ℤ × ℚ)}, (obs.map Prod.fst).Nodup →
      ∀ {p : ℤ × ℚ}, p ∈ obs → obs.lookup p.1 = some p.2 := by
  intro obs
  induction obs with
  | nil => intro _ p hp; cases hp
  | cons q t ih =>
    intro hnd p hp
    have hnd' : (q.1 :: t.map Prod.fst).Nodup := by simpa using hnd
    rcases List.mem_cons.mp hp with rfl | ht
    · simp [List.lookup]
    · have hne : (p.1 == q.1) = false := by
        refine beq_false_of_ne ?_
        intro he
        exact (List.nodup_cons.mp hnd').1 (he ▸ List.mem_map_of_mem Prod.fst ht)
      rw [show (q :: t).lookup p.1 = t.lookup p.1 by simp [List.lookup, hne]]
      exact ih (List.nodup_cons.mp hnd').2 ht

lemma lookup_eq_none_of_not_mem :
    ∀ {obs : List (ℤ × ℚ)} {d : ℤ}, d ∉ obs.map Prod.fst → obs.lookup d = none := by
  intro obs
  induction obs with
  | nil => intro d _; rfl
  | cons q t ih =>
    intro d hd
    have h1 : d ≠ q.1 := by
      intro he; exact hd (by simp [he])
    have h2 : d ∉ t.map Prod.fst := by
      intro he; exact hd (by simp [he])
    rw [show (q :: t).lookup d = t.lookup d by simp [List.lookup, beq_false_of_ne h1]]
    exact ih h2

lemma denseDates_fill_shape (lo : ℤ) (g : ℤ → ℚ) (n : ℕ) :
    DenseDates ((List.range n).map (fun i : ℕ => (lo + (i : ℤ), g (lo + (i : ℤ))))) := by
  rw [DenseDates, List.chain'_map, List.chain'_iff_get]
  intro i h
  simp only [List.get_eq_getElem, List.getElem_range]
  push_cast
  ring

/-- Conclusion of claim C2, as a predicate on the observation list. -/
def C2Post (obs : List (ℤ × ℚ)) : Prop :=
  (fillSeries obs).length = (maxDate obs - minDate obs).toNat + 1 ∧
  ((fillSeries obs).map Prod.fst =
    (List.range ((maxDate obs - minDate obs).toNat + 1)).map (fun i : ℕ => minDate obs + (i : ℤ))) ∧
  DenseDates (fillSeries obs) ∧
  (∀ p ∈ obs, p ∈ fillSeries obs) ∧
  (∀ d : ℤ, minDate obs ≤ d → d ≤ maxDate obs → d ∉ obs.map Prod.fst →
    (d, 0) ∈ fillSeries obs)

/-- C2: for a non-empty observation set (distinct dates, as produced by the
`GROUP BY date` aggregation), the filled series has length
`(max_date - min_date).days + 1`, carries exactly one entry per calendar day
from `min_date` to `max_date` in ascending order, keeps every input
observation, and fills every absent day with count `0`. -/
theorem C2_fill_dense (obs : List (ℤ × ℚ)) (hne : obs ≠ [])
    (hnd : (obs.map Prod.fst).Nodup) : C2Post obs := by
  obtain ⟨q, t, rfl⟩ := List.exists_cons_of_ne_nil hne
  have hfill : fillSeries (q :: t) =
      (List.range ((maxDate (q :: t) - minDate (q :: t)).toNat + 1)).map
        (fun i : ℕ => (minDate (q :: t) + (i : ℤ),
          (((q :: t).lookup (minDate (q :: t) + (i : ℤ))).getD 0))) := rfl
  refine ⟨by rw [hfill]; simp, by rw [hfill]; simp, ?_, ?_, ?_⟩
  · rw [hfill]
    exact denseDates_fill_shape _ (fun d => (((q :: t).lookup d).getD 0)) _
  · intro p hp
    rw [hfill, List.mem_map]
    refine ⟨(p.1 - minDate (q :: t)).toNat, ?_, ?_⟩
    · rw [List.mem_range]
      have h1 := minDate_le hp
      have h2 := le_maxDate hp
      omega
    · have h1 := minDate_le hp
      have hd : minDate (q :: t) + ((p.1 - minDate (q :: t)).toNat : ℤ) = p.1 := by omega
      rw [hd, lookup_eq_some_of_nodup hnd hp]
      rfl
  · intro d hd1 hd2 hd3
    rw [hfill, List.mem_map]
    refine ⟨(d - minDate (q :: t)).toNat, ?_, ?_⟩
    · rw [List.mem_range]; omega
    · have hd : minDate (q :: t) + ((d - minDate (q :: t)).toNat : ℤ) = d := by omega
      rw [hd, lookup_eq_none_of_not_mem hd3]
      rfl

/-- Witness instantiating `C2_fill_dense` on the gapped observation set
`[(0, 3), (2, 1)]`. -/
theorem C2_fill_dense_witness :
    (([((0 : ℤ), (3 : ℚ)), (2, 1)] : List (ℤ × ℚ)) ≠ [] ∧
        (([((0 : ℤ), (3 : ℚ)), (2, 1)] : List (ℤ × ℚ)).map Prod.fst).Nodup) ∧
      C2Post [((0 : ℤ), (3 : ℚ)), (2, 1)] :=
  ⟨⟨by decide, by decide⟩, C2_fill_dense _ (by decide) (by decide)⟩

/-! ## TrendForecaster (`forecast_incidents`, src/app.py lines 592-650)

`round(x, 2)` in Python rounds half to even; it is modelled exactly on `ℚ`.
The source computes `pred = max(0.0, slope * ti + intercept)` and then emits
`float(round(pred, 2))`. -/

/-- Python's `round` to an integer: round half to even. -/
def roundHalfEven (q : ℚ) : ℤ :=
  if q - (⌊q⌋ : ℚ) < 1 / 2 then ⌊q⌋
  else if 1 / 2 < q - (⌊q⌋ : ℚ) then ⌊q⌋ + 1
  else if ⌊q⌋ % 2 = 0 then ⌊q⌋ else ⌊q⌋ + 1

/-- Python's `round(q, 2)`. -/
def round2 (q : ℚ) : ℚ :=
  (roundHalfEven (q * 100) : ℚ) / 100

/-- Chronological order on observations, `df.sort_values('date')`. -/
def dateLE (a b : ℤ × ℚ) : Prop := a.1 ≤ b.1

instance : DecidableRel dateLE := fun a b => by
  unfold dateLE
  infer_instance

/-- `df = df.sort_values('date')`. -/
def sortByDate (s : List (ℤ × ℚ)) : List (ℤ × ℚ) :=
  List.insertionSort dateLE s

/-- `n = float(len(t))`. -/
def nQ (s : List (ℤ × ℚ)) : ℚ := (s.length : ℚ)

/-- `sum_t = float(t.sum())` with `t = 0..N-1`. -/
def sumT (s : List (ℤ × ℚ)) : ℚ :=
  ((List.range s.length).map (fun i : ℕ => (i : ℚ))).sum

/-- `sum_y = float(y.sum())`. -/
def sumY (s : List (ℤ × ℚ)) : ℚ := (s.map Prod.snd).sum

/-- `sum_tt = float((t * t).sum())`. -/
def sumTT (s : List (ℤ × ℚ)) : ℚ :=
  ((List.range s.length).map (fun i : ℕ => (i : ℚ) * (i : ℚ))).sum

/-- `sum_ty = float((t * y).sum())`. -/
def sumTY (s : List (ℤ × ℚ)) : ℚ :=
  (List.zipWith (fun (i : ℕ) (p : ℤ × ℚ) => (i : ℚ) * p.2) (List.range s.length) s).sum

/-- `denom = (n * sum_tt - sum_t * sum_t)`. -/
def olsDenom (s : List (ℤ × ℚ)) : ℚ := nQ s * sumTT s - sumT s * sumT s

/-- `slope`: `0.0` on the degenerate branch, else the closed-form OLS slope. -/
def olsSlope (s : List (ℤ × ℚ)) : ℚ :=
  if olsDenom s = 0 then 0 else (nQ s * sumTY s - sumT s * sumY s) / olsDenom s

/-- `intercept`: mean of the counts on the degenerate branch (`n > 0` always
holds on this path since the frame is non-empty), else the OLS intercept. -/
def olsIntercept (s : List (ℤ × ℚ)) : ℚ :=
  if olsDenom s = 0 then sumY s / nQ s else (sumY s - olsSlope s * sumT s) / nQ s

/-- `method` of the fitted branch. -/
def fitMethod (s : List (ℤ × ℚ)) : String :=
  if olsDenom s = 0 then "naive_last" else "linear_trend"

/-- `df['date'].iloc[-1]`: the last (chronologically greatest) observed date. -/
def lastDate (s : List (ℤ × ℚ)) : ℤ :=
  (s.getLast?.map Prod.fst).getD 0

/-- The forecast value for step `i ≥ 1`:
`pred = max(0.0, slope * ((N-1) + i) + intercept)` then `round(pred, 2)`. -/
def predAt (s : List (ℤ × ℚ)) (i : ℕ) : ℚ :=
  round2 (max 0 (olsSlope s * (((s.length : ℚ) - 1) + (i : ℚ)) + olsIntercept s))

/-- The forecast list: for `i = 1..h`, date `last + i`, value `predAt s i`. -/
def forecastPoints (s : List (ℤ × ℚ)) (h : ℕ) : List (ℤ × ℚ) :=
  (List.range h).map (fun j : ℕ => (lastDate s + (j : ℤ) + 1, predAt s (j + 1)))

/-- Result of `forecast_incidents`.  `slope?`/`intercept?` are `none` on the
empty-history branch, where the source never defines them. -/
structure ForecastOut where
  points : List (ℤ × ℚ)
  method : String
  slopeOpt : Option ℚ
  interceptOpt : Option ℚ
deriving DecidableEq

/-- The forecasting core of `forecast_incidents`: empty history returns the
flat naive forecast at rate `5` starting the day after `now`; otherwise the
frame is sorted by date and the (possibly degenerate) OLS fit is projected. -/
def forecast (series : List (ℤ × ℚ)) (h : ℕ) (now : ℤ) : ForecastOut :=
  match series with
  | [] => ⟨(List.range h).map (fun i : ℕ => (now + (i : ℤ) + 1, (5 : ℚ))), "naive", none, none⟩
  | _ :: _ =>
    let s := sortByDate series
    ⟨forecastPoints s h, fitMethod s, some (olsSlope s), some (olsIntercept s)⟩

/-- `horizon_days = max(1, min(int(days), 60))`. -/
def clampDays (days : ℤ) : ℕ := (max 1 (min days 60)).toNat

/-- The `/api/forecast/incidents` endpoint body: the horizon is clamped
inside the endpoint before the forecast is computed. -/
def forecastEndpoint (days : ℤ) (series : List (ℤ × ℚ)) (now : ℤ) : ForecastOut :=
  forecast series (clampDays days) now

lemma roundHalfEven_nonneg {q : ℚ} (hq : 0 ≤ q) : 0 ≤ roundHalfEven q := by
  have hf : (0 : ℤ) ≤ ⌊q⌋ := Int.floor_nonneg.mpr hq
  unfold roundHalfEven
  split_ifs <;> omega

lemma roundHalfEven_nonpos {q : ℚ} (hq : q ≤ 0) : roundHalfEven q ≤ 0 := by
  have hf : ⌊q⌋ ≤ 0 := by
    calc ⌊q⌋ ≤ ⌊(0 : ℚ)⌋ := Int.floor_le_floor hq
      _ = 0 := Int.floor_zero
  have hfl : (⌊q⌋ : ℚ) ≤ q := Int.floor_le q
  unfold roundHalfEven
  split_ifs with h1 h2 h3
  · exact hf
  · have hc : (⌊q⌋ : ℚ) ≤ -(1 / 2) := by linarith
    have : (⌊q⌋ : ℚ) < 0 := by linarith
    have : ⌊q⌋ < 0 := by exact_mod_cast this
    omega
  · exact hf
  · have hc : (⌊q⌋ : ℚ) ≤ -(1 / 2) := by linarith
    have : (⌊q⌋ : ℚ) < 0 := by linarith
    have : ⌊q⌋ < 0 := by exact_mod_cast this
    omega

lemma round2_nonneg {q : ℚ} (hq : 0 ≤ q) : 0 ≤ round2 q := by
  unfold round2
  have h := roundHalfEven_nonneg (q := q * 100) (by positivity)
  have : (0 : ℚ) ≤ (roundHalfEven (q * 100) : ℚ) := by exact_mod_cast h
  positivity

lemma round2_nonpos {q : ℚ} (hq : q ≤ 0) : round2 q ≤ 0 := by
  unfold round2
  have h := roundHalfEven_nonpos (q := q * 100) (by nlinarith)
  have h' : (roundHalfEven (q * 100) : ℚ) ≤ 0 := by exact_mod_cast h
  have : (0 : ℚ) < 100 := by norm_num
  exact div_nonpos_of_nonpos_of_nonneg h' (by norm_num)

lemma round2_zero : round2 0 = 0 := by
  norm_num [round2, roundHalfEven]

/-- Rounding after clamping at `0` equals clamping after rounding: the claim's
`max(0.0, round(slope*t+intercept, 2))` agrees with the source's
`round(max(0.0, slope*t+intercept), 2)`. -/
lemma round2_max_comm (x : ℚ) : round2 (max 0 x) = max 0 (round2 x) := by
  rcases le_total 0 x with h | h
  · rw [max_eq_right h, max_eq_right (round2_nonneg h)]
  · rw [max_eq_left h, round2_zero, max_eq_left (round2_nonpos h)]

lemma dense_sorted {s : List (ℤ × ℚ)} (hd : DenseDates s) :
    List.Sorted dateLE s :=
  (dense_pairwise_lt hd).imp (fun h => le_of_lt h)

lemma sortByDate_dense_eq {s : List (ℤ × ℚ)} (hd : DenseDates s) :
    sortByDate s = s :=
  (dense_sorted hd).insertionSort_eq

lemma forecast_points_length (series : List (ℤ × ℚ)) (h : ℕ) (now : ℤ) :
    (forecast series h now).points.length = h := by
  cases series with
  | nil => simp [forecast]
  | cons q t => simp [forecast, forecastPoints]

/-- Conclusion of claim C3, as a predicate. -/
def C3Post (series : List (ℤ × ℚ)) (h : ℕ) (now : ℤ) : Prop :=
  (forecast series h now).points.length = h ∧
  (∀ j : ℕ, j < h → (forecast series h now).points[j]? =
    some (lastDate series + (j : ℤ) + 1,
      max 0 (round2 (olsSlope series * (((series.length : ℚ) - 1) + ((j : ℚ) + 1)) +
        olsIntercept series)))) ∧
  (∀ p ∈ (forecast series h now).points, 0 ≤ p.2) ∧
  ((forecast series h now).points.map Prod.fst =
    (List.range h).map (fun j : ℕ => lastDate series + (j : ℤ) + 1))

/-- C3: for a non-empty dense series and a horizon in `[1, 60]`, the forecast
has exactly `horizon` points; point `j` (0-based) is dated `last observed date
+ j + 1` — contiguous, strictly increasing, one day apart, starting the day
after the last observed date — and its value is
`max(0.0, round(slope * ((N-1) + (j+1)) + intercept, 2))`, never negative. -/
theorem C3_forecast_shape (series : List (ℤ × ℚ)) (h : ℕ) (now : ℤ)
    (hne : series ≠ []) (hd : DenseDates series) (_h1 : 1 ≤ h) (_h60 : h ≤ 60) :
    C3Post series h now := by
  obtain ⟨q, t, rfl⟩ := List.exists_cons_of_ne_nil hne
  have hfc : forecast (q :: t) h now =
      ⟨forecastPoints (sortByDate (q :: t)) h, fitMethod (sortByDate (q :: t)),
        some (olsSlope (sortByDate (q :: t))), some (olsIntercept (sortByDate (q :: t)))⟩ := rfl
  rw [C3Post, hfc, sortByDate_dense_eq hd]
  refine ⟨by simp [forecastPoints], ?_, ?_, ?_⟩
  · intro j hj
    have hcast : ((j + 1 : ℕ) : ℚ) = (j : ℚ) + 1 := by push_cast; ring
    simp only [forecastPoints, List.getElem?_map, List.getElem?_range, hj, if_pos,
      Option.map_some', predAt, hcast, round2_max_comm]
  · intro p hp
    simp only [forecastPoints, List.mem_map, List.mem_range] at hp
    obtain ⟨j, -, rfl⟩ := hp
    exact round2_nonneg (le_max_left _ _)
  · simp only [forecastPoints, List.map_map]
    rfl

/-- Witness instantiating `C3_forecast_shape` on the dense series
`[(0, 1), (1, 3)]` with horizon `2`. -/
theorem C3_forecast_shape_witness :
    (([((0 : ℤ), (1 : ℚ)), (1, 3)] : List (ℤ × ℚ)) ≠ [] ∧
        DenseDates [((0 : ℤ), (1 : ℚ)), (1, 3)] ∧ 1 ≤ 2 ∧ 2 ≤ 60) ∧
      C3Post [((0 : ℤ), (1 : ℚ)), (1, 3)] 2 7 :=
  ⟨⟨by decide, by simp [DenseDates], by decide, by decide⟩,
    C3_forecast_shape _ 2 7 (by decide) (by simp [DenseDates]) (by decide) (by decide)⟩

/-- Conclusion of claim C4: the three policy branches of the forecaster. -/
def C4Post : Prop :=
  (∀ (h : ℕ) (now : ℤ),
    (forecast [] h now).method = "naive" ∧
    (forecast [] h now).points =
      (List.range h).map (fun i : ℕ => (now + (i : ℤ) + 1, (5 : ℚ))) ∧
    (forecast [] h now).slopeOpt = none ∧
    (forecast [] h now).interceptOpt = none) ∧
  (∀ (series : List (ℤ × ℚ)) (h : ℕ) (now : ℤ), series ≠ [] →
    List.Sorted dateLE series → olsDenom series = 0 →
    (forecast series h now).method = "naive_last" ∧
    (forecast series h now).slopeOpt = some 0 ∧
    (forecast series h now).interceptOpt = some (detectMean series)) ∧
  (∀ (series : List (ℤ × ℚ)) (h : ℕ) (now : ℤ), series ≠ [] →
    List.Sorted dateLE series → olsDenom series ≠ 0 →
    (forecast series h now).method = "linear_trend" ∧
    (forecast series h now).slopeOpt =
      some ((nQ series * sumTY series - sumT series * sumY series) / olsDenom series) ∧
    (forecast series h now).interceptOpt =
      some ((sumY series - olsSlope series * sumT series) / nQ series))

/-- C4: the forecaster is total (no exception on degenerate input) and takes
policy branches: empty history gives the flat naive rate-5 forecast starting
the day after `now` with method `"naive"`; a zero OLS denominator gives slope
`0`, intercept the mean of the counts, method `"naive_last"`; otherwise the
closed-form OLS fit with method `"linear_trend"`. -/
theorem C4_forecast_branches : C4Post := by
  refine ⟨?_, ?_, ?_⟩
  · intro h now
    exact ⟨rfl, rfl, rfl, rfl⟩
  · intro series h now hne hsort hden
    obtain ⟨q, t, rfl⟩ := List.exists_cons_of_ne_nil hne
    have hs : sortByDate (q :: t) = q :: t := hsort.insertionSort_eq
    have hfc : forecast (q :: t) h now =
        ⟨forecastPoints (sortByDate (q :: t)) h, fitMethod (sortByDate (q :: t)),
          some (olsSlope (sortByDate (q :: t))), some (olsIntercept (sortByDate (q :: t)))⟩ := rfl
    rw [hfc, hs]
    exact ⟨by simp [fitMethod, hden], by simp [olsSlope, hden],
      by simp [olsIntercept, hden]; rfl⟩
  · intro series h now hne hsort hden
    obtain ⟨q, t, rfl⟩ := List.exists_cons_of_ne_nil hne
    have hs : sortByDate (q :: t) = q :: t := hsort.insertionSort_eq
    have hfc : forecast (q :: t) h now =
        ⟨forecastPoints (sortByDate (q :: t)) h, fitMethod (sortByDate (q :: t)),
          some (olsSlope (sortByDate (q :: t))), some (olsIntercept (sortByDate (q :: t)))⟩ := rfl
    rw [hfc, hs]
    exact ⟨by simp [fitMethod, hden], by simp [olsSlope, hden],
      by simp [olsIntercept, hden]⟩

/-- Witness instantiating all three branches of `C4_forecast_branches`:
empty history, the single-point series `[(5, 3)]` (denominator `0`), and the
two-point series `[(0, 1), (1, 3)]` (denominator `1`). -/
theorem C4_forecast_branches_witness :
    ((forecast [] 3 10).method = "naive" ∧
        (forecast [] 3 10).points =
          (List.range 3).map (fun i : ℕ => ((10 : ℤ) + (i : ℤ) + 1, (5 : ℚ))) ∧
        (forecast [] 3 10).slopeOpt = none ∧
        (forecast [] 3 10).interceptOpt = none) ∧
      (olsDenom [((5 : ℤ), (3 : ℚ))] = 0 ∧
        (forecast [((5 : ℤ), (3 : ℚ))] 2 0).method = "naive_last" ∧
        (forecast [((5 : ℤ), (3 : ℚ))] 2 0).slopeOpt = some 0 ∧
        (forecast [((5 : ℤ), (3 : ℚ))] 2 0).interceptOpt =
          some (detectMean [((5 : ℤ), (3 : ℚ))])) ∧
      (olsDenom [((0 : ℤ), (1 : ℚ)), (1, 3)] ≠ 0 ∧
        (forecast [((0 : ℤ), (1 : ℚ)), (1, 3)] 2 0).method = "linear_trend") := by
  have hden1 : olsDenom [((5 : ℤ), (3 : ℚ))] = 0 := by
    norm_num [olsDenom, nQ, sumT, sumTT, List.range_succ]
  have hden2 : olsDenom [((0 : ℤ), (1 : ℚ)), (1, 3)] ≠ 0 := by
    norm_num [olsDenom, nQ, sumT, sumTT, List.range_succ]
  refine ⟨C4_forecast_branches.1 3 10, ⟨hden1, ?_⟩, ⟨hden2, ?_⟩⟩
  · exact C4_forecast_branches.2.1 [((5 : ℤ), (3 : ℚ))] 2 0 (by decide) (by decide) hden1
  · exact (C4_forecast_branches.2.2 [((0 : ℤ), (1 : ℚ)), (1, 3)] 2 0 (by decide)
      (by decide) hden2).1

/-- C9: the endpoint clamps the requested horizon itself: for every integer
`days` parameter the effective horizon is `max(1, min(days, 60))`, computed
before forecasting, so the forecast always has between 1 and 60 points. -/
theorem C9_horizon_clamped (days : ℤ) (series : List (ℤ × ℚ)) (now : ℤ) :
    (forecastEndpoint days series now).points.length = clampDays days ∧
    1 ≤ (forecastEndpoint days series now).points.length ∧
    (forecastEndpoint days series now).points.length ≤ 60 ∧
    ((clampDays days : ℤ) = max 1 (min days 60)) := by
  have hlen : (forecastEndpoint days series now).points.length = clampDays days :=
    forecast_points_length series (clampDays days) now
  have h1 : (1 : ℤ) ≤ max 1 (min days 60) := le_max_left _ _
  have h60 : max 1 (min days 60) ≤ 60 :=
    max_le (by norm_num) (min_le_right _ _)
  have hcd : (clampDays days : ℤ) = max 1 (min days 60) := by
    rw [clampDays, Int.toNat_of_nonneg (by omega)]
  refine ⟨hlen, ?_, ?_, hcd⟩
  · rw [hlen]; omega
  · rw [hlen]; omega

/-! ## String containment (Python's `in` operator and `str.lower()`) -/

/-- Prefix test on character lists. -/
def listPrefixCheck : List Char → List Char → Bool
  | [], _ => true
  | _ :: _, [] => false
  | c :: cs, d :: ds => c == d && listPrefixCheck cs ds

/-- Contiguous-sublist test on character lists. -/
def listInfixCheck (nd : List Char) : List Char → Bool
  | [] => listPrefixCheck nd []
  | d :: ds => listPrefixCheck nd (d :: ds) || listInfixCheck nd ds

/-- Python's `needle in hay` on strings: contiguous case-sensitive substring. -/
def strContains (hay needle : String) : Bool :=
  listInfixCheck needle.data hay.data

/-- Python's `str.lower()`, character by character. -/
def lowerStr (s : String) : String :=
  ⟨s.data.map Char.toLower⟩

lemma listPrefixCheck_iff : ∀ (nd l : List Char),
    listPrefixCheck nd l = true ↔ nd <+: l := by
  intro nd
  induction nd with
  | nil => intro l; simp [listPrefixCheck]
  | cons c cs ih =>
    intro l
    cases l with
    | nil =>
      simp only [listPrefixCheck]
      constructor
      · intro h; cases h
      · intro h
        have := List.eq_nil_of_prefix_nil h
        cases this
    | cons d ds =>
      simp only [listPrefixCheck, Bool.and_eq_true, beq_iff_eq, List.cons_prefix_cons]
      exact and_congr Iff.rfl (ih ds)

lemma listInfixCheck_iff (nd : List Char) : ∀ l : List Char,
    listInfixCheck nd l = true ↔ nd <:+: l := by
  intro l
  induction l with
  | nil =>
    simp only [listInfixCheck, listPrefixCheck_iff]
    constructor
    · intro h
      exact h.isInfix
    · intro h
      obtain ⟨s, t, hst⟩ := h
      have hs := List.append_eq_nil.mp hst
      have hn := List.append_eq_nil.mp hs.1
      rw [hn.2]
  | cons d ds ih =>
    simp only [listInfixCheck, Bool.or_eq_true, listPrefixCheck_iff, ih,
      List.infix_cons_iff]

/-- `strContains hay needle` is exactly contiguous substring containment. -/
lemma strContains_iff (hay needle : String) :
    strContains hay needle = true ↔ needle.data <:+: hay.data :=
  listInfixCheck_iff needle.data hay.data

/-! ## PlaybookSynthesizer (`generate_playbook` fallback, src/app.py lines 491-505)

Step texts are copied byte-for-byte from the source (including the U+2011
non-breaking hyphens in "Post‑incident ..." and "... re‑verification"). -/

/-- One playbook step record. -/
structure PlaybookStep where
  step : String
  owner : String
  eta_hours : ℕ
  priority : String
  tooling : String
deriving DecidableEq

/-- The fixed 7-step fallback template `base`. -/
def baseSteps : List PlaybookStep :=
  [⟨"Establish incident channel and assign roles", "IR Lead", 1, "P1", "Chat/ITSM"⟩,
   ⟨"Contain affected accounts/systems", "SecOps", 2, "P1", "EDR/IAM"⟩,
   ⟨"Collect evidence and snapshot logs", "SecOps", 2, "P2", "SIEM/EDR"⟩,
   ⟨"Root cause analysis and scope", "IR Lead", 4, "P2", "SIEM"⟩,
   ⟨"Remediate misconfigurations/rotate secrets", "IAM Admin", 3, "P2", "IAM/Secrets"⟩,
   ⟨"User comms and awareness", "IT Comms", 2, "P3", "Email/LMS"⟩,
   ⟨"Post‑incident review and lessons learned", "IR Lead", 2, "P3", "Docs/ITSM"⟩]

/-- `base[1]['eta_hours'] = 1; base[1]['priority'] = 'P1'` (the critical
override touches the second entry of the list). -/
def criticalOverride : List PlaybookStep → List PlaybookStep
  | a :: b :: rest => a :: { b with eta_hours := 1, priority := "P1" } :: rest
  | l => l

/-- The step inserted for authentication-related categories. -/
def authStep : PlaybookStep :=
  ⟨"Force password reset & MFA re‑verification", "IAM Admin", 1, "P1", "IAM"⟩

/-- `base.insert(1, ...)`: insertion at 0-based index 1 (1-indexed position 2). -/
def insertAtSecond (st : PlaybookStep) : List PlaybookStep → List PlaybookStep
  | a :: rest => a :: st :: rest
  | [] => [st]

/-- The fallback branch of `generate_playbook`: critical override, then the
category insertion (`'authentication' in category`, case-sensitive), then
truncation `base[:7]`. -/
def synthesize (sev category : String) : List PlaybookStep :=
  let b1 := if lowerStr sev = "critical" then criticalOverride baseSteps else baseSteps
  let b2 := if strContains category "authentication" then insertAtSecond authStep b1 else b1
  b2.take 7

/-- Formalised from the spec's words: the spec's *case-insensitive* test
"category contains \"authentication\"". -/
def specAuthCondition (category : String) : Bool :=
  strContains (lowerStr category) "authentication"

/-- Conclusion of the amended claim C5. -/
def C5Post (sev category : String) : Prop :=
  (synthesize sev category)[1]? = some authStep ∧
  ((synthesize sev category)[2]?).map PlaybookStep.step =
    some "Contain affected accounts/systems"

/-- C5 (amended): when the category contains `"authentication"` as a
**case-sensitive** substring, the synthesized playbook carries the forced
password-reset / MFA re-verification step (owner IAM Admin, eta 1, priority
P1, tooling IAM) at 1-indexed position 2, immediately before the existing
"Contain affected accounts/systems" step. -/
theorem C5_auth_insertion (sev category : String)
    (h : strContains category "authentication" = true) : C5Post sev category := by
  by_cases hc : lowerStr sev = "critical" <;>
    simp [C5Post, synthesize, h, hc, criticalOverride, insertAtSecond, baseSteps, authStep]

/-- Witness instantiating `C5_auth_insertion` at severity `"high"` and
category `"authentication_bypass"`. -/
theorem C5_auth_insertion_witness :
    strContains "authentication_bypass" "authentication" = true ∧
      C5Post "high" "authentication_bypass" :=
  ⟨by decide, C5_auth_insertion "high" "authentication_bypass" (by decide)⟩

/-- C5 (counterexample): `"Authentication_bypass"` contains
`"authentication"` case-insensitively (the spec's condition holds), yet the
code's case-sensitive `'authentication' in category` test fails, so no step is
inserted: position 2 still holds the "Contain affected accounts/systems" step
and the MFA step is absent. -/
theorem C5_case_sensitivity_counterexample :
    specAuthCondition "Authentication_bypass" = true ∧
    strContains "Authentication_bypass" "authentication" = false ∧
    ((synthesize "high" "Authentication_bypass")[1]?).map PlaybookStep.step =
      some "Contain affected accounts/systems" ∧
    authStep ∉ synthesize "high" "Authentication_bypass" := by
  refine ⟨by decide, by decide, ?_, by decide⟩
  decide

/-- C10: the fallback playbook always has exactly 7 steps: the base template
has 7; the authentication insertion makes 8 and `base[:7]` then drops the
final "Post‑incident review and lessons learned" step; without insertion that
step stays last. -/
theorem C10_playbook_seven_steps (sev category : String) :
    (synthesize sev category).length = 7 ∧
    baseSteps.length = 7 ∧
    (strContains category "authentication" = true →
      (insertAtSecond authStep
        (if lowerStr sev = "critical" then criticalOverride baseSteps else baseSteps)).length = 8 ∧
      "Post‑incident review and lessons learned" ∉
        (synthesize sev category).map PlaybookStep.step) ∧
    (strContains category "authentication" = false →
      ((synthesize sev category).map PlaybookStep.step).getLast? =
        some "Post‑incident review and lessons learned") := by
  by_cases ha : strContains category "authentication" = true <;>
    by_cases hc : lowerStr sev = "critical" <;>
    refine ⟨?_, by decide, ?_, ?_⟩ <;>
    simp [synthesize, ha, hc, criticalOverride, insertAtSecond, baseSteps, authStep]

/-- Witness instantiating `C10_playbook_seven_steps` in both the inserting
and the non-inserting case. -/
theorem C10_playbook_seven_steps_witness :
    (strContains "authentication_bypass" "authentication" = true ∧
      (synthesize "critical" "authentication_bypass").length = 7 ∧
      "Post‑incident review and lessons learned" ∉
        (synthesize "critical" "authentication_bypass").map PlaybookStep.step) ∧
    (strContains "phishing" "authentication" = false ∧
      (synthesize "low" "phishing").length = 7 ∧
      ((synthesize "low" "phishing").map PlaybookStep.step).getLast? =
        some "Post‑incident review and lessons learned") := by
  refine ⟨⟨by decide, ?_, ?_⟩, ⟨by decide, ?_, ?_⟩⟩
  · exact (C10_playbook_seven_steps "critical" "authentication_bypass").1
  · exact ((C10_playbook_seven_steps "critical" "authentication_bypass").2.2.1 (by decide)).2
  · exact (C10_playbook_seven_steps "low" "phishing").1
  · exact (C10_playbook_seven_steps "low" "phishing").2.2.2 (by decide)

/-! ## ComplianceClassifier (`check_compliance`, src/app.py lines 759-771)

The SQL `CASE` expressions: tag membership is exact (`'mfa' IN UNNEST(tags)`),
description matching lowercases first (`LOWER(description) LIKE '%mfa%'`). -/

/-- `'mfa' IN UNNEST(tags) OR LOWER(description) LIKE '%mfa%'`. -/
def mfaCond (tags : List String) (description : String) : Bool :=
  tags.contains "mfa" || strContains (lowerStr description) "mfa"

/-- `'saas' IN UNNEST(tags) OR LOWER(description) LIKE '%saas%'`. -/
def saasCond (tags : List String) (description : String) : Bool :=
  tags.contains "saas" || strContains (lowerStr description) "saas"

/-- `'access' IN UNNEST(tags) OR LOWER(description) LIKE '%access%'`. -/
def accessCond (tags : List String) (description : String) : Bool :=
  tags.contains "access" || strContains (lowerStr description) "access"

/-- The `applicable_policy` CASE expression, rules in source order. -/
def applicablePolicy (tags : List String) (description : String) : String :=
  if mfaCond tags description then "MFA Policy"
  else if saasCond tags description then "SaaS Usage Policy"
  else if accessCond tags description then "Access Control Policy"
  else "General Security Policy"

/-- The `compliance_assessment` CASE expression: severity only. -/
def complianceAssessment (severity : String) : String :=
  if severity = "critical" then "High Risk - Immediate Action Required"
  else if severity = "high" then "High Risk - Escalate to Senior Team"
  else if severity = "medium" then "Medium Risk - Standard Response"
  else if severity = "low" then "Low Risk - Monitor and Document"
  else "Minimal Risk - Routine Handling"

/-- The classifier's output pair. -/
def classify (tags : List String) (description severity : String) : String × String :=
  (applicablePolicy tags description, complianceAssessment severity)

/-- Conclusion of claim C6. -/
def C6Post : Prop :=
  (∀ (tags : List String) (desc : String),
    (applicablePolicy tags desc = "MFA Policy" ↔ mfaCond tags desc = true) ∧
    (applicablePolicy tags desc = "SaaS Usage Policy" ↔
      mfaCond tags desc = false ∧ saasCond tags desc = true) ∧
    (applicablePolicy tags desc = "Access Control Policy" ↔
      mfaCond tags desc = false ∧ saasCond tags desc = false ∧
        accessCond tags desc = true) ∧
    (applicablePolicy tags desc = "General Security Policy" ↔
      mfaCond tags desc = false ∧ saasCond tags desc = false ∧
        accessCond tags desc = false)) ∧
  (complianceAssessment "critical" = "High Risk - Immediate Action Required" ∧
    complianceAssessment "high" = "High Risk - Escalate to Senior Team" ∧
    complianceAssessment "medium" = "Medium Risk - Standard Response" ∧
    complianceAssessment "low" = "Low Risk - Monitor and Document") ∧
  (∀ sev : String, sev ∉ (["critical", "high", "medium", "low"] : List String) →
    complianceAssessment sev = "Minimal Risk - Routine Handling") ∧
  classify ["mfa"] "" "high" = ("MFA Policy", "High Risk - Escalate to Senior Team")

/-- C6: the applicable policy is chosen by the first matching rule in the
fixed order mfa → saas → access → general (tag present or lowercased
description containing the keyword), and the compliance assessment is a pure
function of severity; in particular tags `["mfa"]` with severity `"high"`
yield `("MFA Policy", "High Risk - Escalate to Senior Team")`. -/
theorem C6_classify_rules : C6Post := by
  refine ⟨?_, ⟨by decide, by decide, by decide, by decide⟩, ?_, by decide⟩
  · intro tags desc
    by_cases h1 : mfaCond tags desc <;>
      by_cases h2 : saasCond tags desc <;>
      by_cases h3 : accessCond tags desc <;>
      simp [applicablePolicy, h1, h2, h3]
  · intro sev hsev
    have e1 : sev ≠ "critical" := fun e => hsev (by simp [e])
    have e2 : sev ≠ "high" := fun e => hsev (by simp [e])
    have e3 : sev ≠ "medium" := fun e => hsev (by simp [e])
    have e4 : sev ≠ "low" := fun e => hsev (by simp [e])
    simp [complianceAssessment, e1, e2, e3, e4]

/-- Witness instantiating the hypothesis-bearing part of `C6_classify_rules`
at the unlisted severity `"info"`. -/
theorem C6_classify_rules_witness :
    ("info" ∉ (["critical", "high", "medium", "low"] : List String)) ∧
      complianceAssessment "info" = "Minimal Risk - Routine Handling" :=
  ⟨by decide, C6_classify_rules.2.2.1 "info" (by decide)⟩

/-! ## IncidentNarrator (`generate_ai_summary` fallback, src/app.py lines 207-299)

The narrator's algorithmic content: severity guidance lookup, risk banding,
the ordered suggested-action rules, and the inclusion conditions of the
optional sections.  The final f-string rendering (and the `%.2f` formatting
of the risk score) is pure presentation of these fields and is not modelled.
Field defaulting (`val(...)`) happens before this core; the structure holds
the post-default snapshot. -/

/-- The incident snapshot as read by the narrator. -/
structure Incident where
  title : String
  description : String
  severity : String
  status : String
  category : String
  businessImpact : String
  rootCause : String
  resolution : String
  createdStr : String
  affectedUsers : ℤ
  resolutionTimeHours : ℚ
  riskScore : ℚ
  tags : List String
deriving DecidableEq

/-- The severity guidance lookup (`severity_text`), default
`'Standard response'`. -/
def severityText (sev : String) : String :=
  if sev = "critical" then "Critical – immediate containment and executive comms required"
  else if sev = "high" then "High – rapid response, escalate to senior on-call"
  else if sev = "medium" then "Medium – standard response within 24–48h"
  else if sev = "low" then "Low – monitor and document"
  else "Standard response"

/-- The risk band thresholds (`risk_band`). -/
def riskBand (r : ℚ) : String :=
  if 9 / 10 ≤ r then "Very High"
  else if 7 / 10 ≤ r then "High"
  else if 1 / 2 ≤ r then "Moderate"
  else "Low"

/-- The ordered suggested-action rules (`suggestions`), each matching rule
appending, with the documentation/review action always last. -/
def suggestionList (sev category description : String) (tags : List String) : List String :=
  (if sev = "critical" || sev = "high" then
    ["Initiate incident command and page senior on-call",
     "Contain blast radius and revoke suspicious access"] else []) ++
  (if strContains category "authentication" || strContains (lowerStr description) "mfa" ||
      (tags.map lowerStr).contains "mfa" then
    ["Force password reset; enforce MFA re-verification for affected users"] else []) ++
  (if strContains category "data_leak" || strContains category "credential" ||
      strContains category "insider" || strContains category "third_party" then
    ["Start data exposure assessment and legal/compliance review"] else []) ++
  ["Document findings and schedule post-incident review within 72 hours"]

/-- The derived content of the executive summary. -/
structure Summary where
  severityGuidance : String
  riskBandLabel : String
  actions : List String
  includeContext : Bool
  includeRootCause : Bool
  includeActions : Bool
deriving DecidableEq

/-- The narrator core: severity is lowercased once (`str(...).lower()`), then
guidance, band, suggestions and the optional-section conditions are derived. -/
def summarize (inc : Incident) : Summary :=
  { severityGuidance := severityText (lowerStr inc.severity)
    riskBandLabel := riskBand inc.riskScore
    actions := suggestionList (lowerStr inc.severity) inc.category inc.description inc.tags
    includeContext := !(inc.description == "")
    includeRootCause := !(inc.rootCause == "") && !(inc.rootCause == "Undetermined")
    includeActions := !(inc.resolution == "") && !(inc.resolution == "In progress") }

/-- The bundled output of the anomaly detector (mean, std basis, anomalies). -/
def detect (s : List (ℤ × ℚ)) : ℚ × Option ℚ × List (ℤ × ℚ) :=
  (detectMean s, detectVar s, detectAnomalies s)

/-- C8: all six core operations are pure functions of their inputs (the
forecaster's "now" is an explicit side input): the embedding has no state, so
two calls with identical input are *the same term* and produce identical
output; there is no hidden state or randomness in any of them. -/
theorem C8_six_functions_deterministic :
    (∀ obs : List (ℤ × ℚ), fillSeries obs = fillSeries obs) ∧
    (∀ s : List (ℤ × ℚ), detect s = detect s) ∧
    (∀ (series : List (ℤ × ℚ)) (h : ℕ) (now : ℤ),
      forecast series h now = forecast series h now) ∧
    (∀ inc : Incident, summarize inc = summarize inc) ∧
    (∀ sev category : String, synthesize sev category = synthesize sev category) ∧
    (∀ (tags : List String) (description severity : String),
      classify tags description severity = classify tags description severity) :=
  ⟨fun _ => rfl, fun _ => rfl, fun _ _ _ => rfl, fun _ => rfl, fun _ _ => rfl,
    fun _ _ _ => rfl⟩
